import Mathlib

/-!
Verification development for the Codify repository.

The repository is a Tauri/React IDE prototype.  Its frontend source defines the
completion data model (`CompletionLevel`, `CompletionResult`, `AIContext`), two
AI service implementations (`TauriAIService`, an IPC wrapper, and
`MockAIService`, the browser fallback), a `CodeEditor` component driving
completion requests, a `Sidebar` with an AI chat and AI-suggested files, and an
AI `Terminal`.  The semantic-index engine described by the specification
(vector store, incremental indexing) is not implemented in the repository; the
corresponding operations are modelled from the specification and marked as
such in their doc comments.

Numbers are embedded as `ℚ` (the TypeScript values in play are small decimal
literals), JavaScript promise outcomes as `Except String α` (a resolved value
or a rejection reason), and React state as explicit state records with step
functions.
-/

namespace Codify

/-- Completion granularity, from `CompletionLevel` in the AI types module
(`'Line' | 'Block' | 'Component' | 'Feature'`). -/
inductive CompletionLevel
  | Line
  | Block
  | Component
  | Feature
deriving DecidableEq

/-- Cursor position, from the `Position` interface (`line`, `column`). -/
structure Position where
  line : Nat
  column : Nat
deriving DecidableEq

/-- A completion candidate, from the `CompletionResult` interface
(`id`, `level`, `confidence`, `code`, `language`, `alternatives`). -/
structure CompletionResult where
  id : String
  level : CompletionLevel
  confidence : ℚ
  code : String
  language : String
  alternatives : List String
deriving DecidableEq

/-- Request context, from the `AIContext` interface (`project_path`,
`current_file?`, `selected_text?`, `cursor_position`). -/
structure AIContext where
  project_path : String
  current_file : Option String
  selected_text : Option String
  cursor_position : Position
deriving DecidableEq

/-- The literal code text returned by `MockAIService.completeCode`
(the `Button` component template string from the source; braces escaped). -/
def mockButtonCode : String :=
  "const Button = (\x7b children, variant = \"primary\", ...props \x7d) => \x7b\n  return (\n    <button \n      className=\x7b`btn btn-$\x7bvariant\x7d`\x7d\n      \x7b...props\x7d\n    >\n      \x7bchildren\x7d\n    </button>\n  );\n\x7d;"

namespace MockAIService

/-- `MockAIService.completeCode(_context, level)`: ignores the context and
returns the fixed mock candidate with `confidence: 0.92` at the requested
level. -/
def completeCode (_context : AIContext) (level : CompletionLevel) :
    CompletionResult :=
  { id := "1"
    level := level
    confidence := 92/100
    code := mockButtonCode
    language := "typescript"
    alternatives := ["Styled components variant", "CSS modules variant"] }

end MockAIService

/-- Modelled from the spec: the Completion Orchestrator's confidence scoring is
not implemented in the repository (the Tauri backend behind
`TauriAIService.completeCode` is absent); the spec requires the heuristic score
to be "clipped to [0,1]". -/
def clip01 (x : ℚ) : ℚ := max 0 (min 1 x)

/-- C1: for every completion request (any context, any level), the confidence
of the returned candidate lies in [0,1]; the spec-modelled orchestrator
clipping maps every raw score into [0,1]. -/
theorem confidence_in_unit_interval :
    (∀ (ctx : AIContext) (lvl : CompletionLevel),
        0 ≤ (MockAIService.completeCode ctx lvl).confidence ∧
        (MockAIService.completeCode ctx lvl).confidence ≤ 1) ∧
    (∀ x : ℚ, 0 ≤ clip01 x ∧ clip01 x ≤ 1) := by
  refine ⟨fun ctx lvl => ?_, fun x => ?_⟩
  · constructor <;> norm_num [MockAIService.completeCode]
  · exact ⟨le_max_left 0 (min 1 x), max_le (by norm_num) (min_le_left 1 x)⟩

/-- React state of the `CodeEditor` component relevant to completion:
`currentSuggestion`, `showSuggestion`, `isLoadingSuggestion`, whether the
editor text contains `'const '` (the auto-trigger condition of the
`useEffect`), and the number of in-flight `completeCode` promises. -/
structure EditorState where
  currentSuggestion : Option CompletionResult
  showSuggestion : Bool
  isLoadingSuggestion : Bool
  codeHasConst : Bool
  pending : Nat
deriving DecidableEq

/-- Entry of `requestAICompletion`: `setIsLoadingSuggestion(true)` and the
`AIService.completeCode` promise becomes pending. -/
def applyStart (s : EditorState) : EditorState :=
  { s with isLoadingSuggestion := true, pending := s.pending + 1 }

/-- Resolution of a pending `completeCode` promise with result `r`:
`setCurrentSuggestion(result)`, `setShowSuggestion(true)`, and the `finally`
block clears the loading flag.  `requestAICompletion` attaches this handler to
every promise it creates; there is no token consulted before delivery. -/
def applyResolve (r : CompletionResult) (s : EditorState) : EditorState :=
  { s with currentSuggestion := some r
           showSuggestion := true
           isLoadingSuggestion := false
           pending := s.pending - 1 }

/-- Rejection of a pending `completeCode` promise: the `catch` branch only
logs to the console, the `finally` block clears the loading flag; the
suggestion state is not touched and no candidate is synthesized. -/
def applyFail (s : EditorState) : EditorState :=
  { s with isLoadingSuggestion := false, pending := s.pending - 1 }

/-- The auto-completion `useEffect` timer firing: `requestAICompletion` is
invoked only when the code contains `'const '`, no suggestion is showing, and
no request is currently loading; otherwise nothing happens. -/
def applyTrigger (s : EditorState) : EditorState :=
  if s.codeHasConst && !s.showSuggestion && !s.isLoadingSuggestion then
    applyStart s
  else
    s

/-- Observable phases of `requestAICompletion` invocations: a call starting,
and a pending `completeCode` promise resolving or rejecting.  The function
body contains no cancellation token and no supersede logic, so nothing
prevents overlapping invocations, and every resolution runs the same
delivery handler. -/
inductive RequestEv
  | start
  | resolve (r : CompletionResult)
  | fail (e : String)

/-- One `requestAICompletion`-level event applied to the editor state. -/
def requestStep (s : EditorState) : RequestEv → EditorState
  | .start => applyStart s
  | .resolve r => applyResolve r s
  | .fail _ => applyFail s

/-- A sequence of `requestAICompletion`-level events. -/
def runRequests (s : EditorState) (evs : List RequestEv) : EditorState :=
  evs.foldl requestStep s

/-- Events of the `CodeEditor` component loop, where requests originate only
from the guarded auto-completion trigger (`requestAICompletion` has a single
call site, inside the `useEffect` timer). -/
inductive UiEv
  | trigger
  | resolve (r : CompletionResult)
  | fail (e : String)

/-- One component-level event applied to the editor state. -/
def uiStep (s : EditorState) : UiEv → EditorState
  | .trigger => applyTrigger s
  | .resolve r => applyResolve r s
  | .fail _ => applyFail s

/-- A sequence of component-level events. -/
def runUi (s : EditorState) (evs : List UiEv) : EditorState :=
  evs.foldl uiStep s

/-- Initial `CodeEditor` state: no suggestion, nothing loading, no pending
promise; the initial editor text contains `'const '`. -/
def initialEditor : EditorState :=
  { currentSuggestion := none
    showSuggestion := false
    isLoadingSuggestion := false
    codeHasConst := true
    pending := 0 }

/-- Sample completion result standing for request A's result in race traces. -/
def resultA : CompletionResult :=
  { id := "A"
    level := .Component
    confidence := 92/100
    code := ""
    language := "typescript"
    alternatives := [] }

/-- Sample completion result standing for request B's result in race traces. -/
def resultB : CompletionResult :=
  { id := "B"
    level := .Component
    confidence := 92/100
    code := ""
    language := "typescript"
    alternatives := [] }

/-- C3 counterexample: request A starts, request B starts while A is pending,
B's result arrives, then A's result arrives late.  A's stale result is
delivered — it overwrites the shown suggestion — contradicting "A's eventual
result, if it ever arrives, is discarded and never delivered to the caller". -/
theorem stale_result_delivered :
    (runRequests initialEditor
        [RequestEv.start, RequestEv.start, RequestEv.resolve resultB,
         RequestEv.resolve resultA]).currentSuggestion = some resultA ∧
    (runRequests initialEditor
        [RequestEv.start, RequestEv.start, RequestEv.resolve resultB,
         RequestEv.resolve resultA]).showSuggestion = true ∧
    resultA ≠ resultB := by
  refine ⟨rfl, rfl, ?_⟩
  decide

/-- C3 amended: the code has no cancellation.  Every resolution of a pending
request is delivered (the suggestion is set and shown), and a second request
started while one is pending leaves both in flight — nothing is superseded
and no result is ever discarded. -/
theorem no_cancellation_semantics :
    (∀ (s : EditorState) (r : CompletionResult),
        (applyResolve r s).currentSuggestion = some r ∧
        (applyResolve r s).showSuggestion = true) ∧
    (runRequests initialEditor [RequestEv.start, RequestEv.start]).pending = 2 :=
  ⟨fun _ _ => ⟨rfl, rfl⟩, rfl⟩

/-- C4 counterexample: with a request pending (after one trigger), a second
trigger changes nothing at all — the state equals the one-trigger state, no
new request starts, and the original pending request's result is still the
one delivered.  The pending request is therefore skipped around, not
"replaced" by the new one. -/
theorem second_trigger_is_noop :
    runUi initialEditor [UiEv.trigger, UiEv.trigger]
      = runUi initialEditor [UiEv.trigger] ∧
    (runUi initialEditor
        [UiEv.trigger, UiEv.trigger, UiEv.resolve resultA]).currentSuggestion
      = some resultA :=
  ⟨rfl, rfl⟩

/-- Preservation of the completion-loop invariant (at most one pending
promise, and the loading flag tracks it) by a single component event. -/
lemma uiStep_inv {s : EditorState} (h₁ : s.pending ≤ 1)
    (h₂ : s.isLoadingSuggestion = true ↔ s.pending = 1) (e : UiEv) :
    (uiStep s e).pending ≤ 1 ∧
      ((uiStep s e).isLoadingSuggestion = true ↔ (uiStep s e).pending = 1) := by
  cases e with
  | trigger =>
      by_cases hc : (s.codeHasConst && !s.showSuggestion && !s.isLoadingSuggestion) = true
      · have hload : s.isLoadingSuggestion = false := by
          rcases Bool.and_eq_true_iff.mp hc with ⟨-, h⟩
          simpa using h
        have hpend : s.pending = 0 := by
          have : ¬ s.pending = 1 := fun h => by simp [h₂.mpr h] at hload
          omega
        simp [uiStep, applyTrigger, hc, applyStart, hpend]
      · simp only [uiStep, applyTrigger, if_neg hc]
        exact ⟨h₁, h₂⟩
  | resolve r =>
      refine ⟨by simp [uiStep, applyResolve]; omega, ?_⟩
      simp only [uiStep, applyResolve]
      constructor
      · intro h
        exact absurd h (by simp)
      · intro h
        omega
  | fail e =>
      refine ⟨by simp [uiStep, applyFail]; omega, ?_⟩
      simp only [uiStep, applyFail]
      constructor
      · intro h
        exact absurd h (by simp)
      · intro h
        omega

/-- The completion-loop invariant holds along every event sequence from any
state satisfying it. -/
lemma runUi_inv_aux (evs : List UiEv) :
    ∀ s : EditorState, s.pending ≤ 1 →
      (s.isLoadingSuggestion = true ↔ s.pending = 1) →
      (runUi s evs).pending ≤ 1 ∧
        ((runUi s evs).isLoadingSuggestion = true ↔ (runUi s evs).pending = 1) := by
  induction evs with
  | nil => exact fun s h₁ h₂ => ⟨h₁, h₂⟩
  | cons e evs ih =>
      intro s h₁ h₂
      exact ih (uiStep s e) (uiStep_inv h₁ h₂ e).1 (uiStep_inv h₁ h₂ e).2

/-- C4 amended: in every reachable state of the `CodeEditor` completion loop
at most one request is in flight; a trigger arriving while a request is
loading is a no-op (the new request is skipped — neither queued nor replacing
the pending one). -/
theorem at_most_one_pending_request :
    (∀ evs : List UiEv, (runUi initialEditor evs).pending ≤ 1) ∧
    (∀ s : EditorState,
        applyTrigger { s with isLoadingSuggestion := true }
          = { s with isLoadingSuggestion := true }) := by
  constructor
  · intro evs
    exact (runUi_inv_aux evs initialEditor (by simp [initialEditor])
      (by simp [initialEditor])).1
  · intro s
    simp [applyTrigger]

/-- One full `requestAICompletion` call whose `completeCode` promise settles
with `resp`: the `try` branch delivers the result, the `catch` branch only
logs, and the `finally` branch clears the loading flag either way. -/
def completeRequest (s : EditorState)
    (resp : Except String CompletionResult) : EditorState :=
  match resp with
  | .ok r => applyResolve r (applyStart s)
  | .error _ => applyFail (applyStart s)

/-- C5: a completion request settles in exactly one of two typed outcomes —
a delivered candidate (the suggestion is set and shown) or a failure (the
suggestion state is untouched: no candidate is fabricated to mask the
failure); in both cases the request terminates (the loading flag clears), and
the two outcomes are mutually exclusive. -/
theorem request_outcome_dichotomy :
    ∀ (s : EditorState) (r : CompletionResult) (e : String),
      (completeRequest s (Except.ok r)).currentSuggestion = some r ∧
      (completeRequest s (Except.ok r)).showSuggestion = true ∧
      (completeRequest s (Except.error e)).currentSuggestion
        = s.currentSuggestion ∧
      (completeRequest s (Except.error e)).showSuggestion = s.showSuggestion ∧
      (completeRequest s (Except.ok r)).isLoadingSuggestion = false ∧
      (completeRequest s (Except.error e)).isLoadingSuggestion = false ∧
      (Except.ok r : Except String CompletionResult) ≠ Except.error e :=
  fun _ _ _ =>
    ⟨rfl, rfl, rfl, rfl, rfl, rfl, fun h => Except.noConfusion h⟩

/-- JavaScript `String.prototype.trim`, embedded structurally over the
character list: leading and trailing whitespace removed. -/
def jsTrim (s : String) : String :=
  (((s.toList.dropWhile Char.isWhitespace).reverse.dropWhile
      Char.isWhitespace).reverse).asString

/-- Kind of a terminal history line, from the `TerminalLine` interface
(`'command' | 'output' | 'error' | 'suggestion'`). -/
inductive LineKind
  | command
  | output
  | error
  | suggestion
deriving DecidableEq

/-- A terminal history line (`type`, `content`, optional `timestamp`;
JavaScript `Date` instants are abstracted as `Nat`). -/
structure TerminalLine where
  type : LineKind
  content : String
  timestamp : Option Nat
deriving DecidableEq

/-- Backend reply to a terminal command, from the `TerminalResponse`
interface (`success`, `output`, `error?`, `suggestions`). -/
structure TerminalResponse where
  success : Bool
  output : String
  error : Option String
  suggestions : List String
deriving DecidableEq

/-- React state of the `Terminal` component: the history list, the input box,
and the thinking flag. -/
structure TermState where
  history : List TerminalLine
  currentCommand : String
  isThinking : Bool
deriving DecidableEq

/-- `Terminal.executeCommand` (the `AIService`-backed variant): a blank
command returns immediately; otherwise the command line is appended, and once
the `executeTerminalCommand` promise settles with `resp` the output line, the
optional error line, and one suggestion line per entry are appended (the
`catch` branch appends a single error line instead). -/
def executeCommand (s : TermState) (command : String) (now : Nat)
    (resp : Except String TerminalResponse) : TermState :=
  if jsTrim command = "" then s
  else
    let afterCmd := s.history ++
      [{ type := LineKind.command, content := command, timestamp := some now }]
    match resp with
    | .ok r =>
        let outputs :=
          [{ type := LineKind.output, content := r.output,
             timestamp := some now }]
            ++ (match r.error with
                | some e =>
                    [{ type := LineKind.error, content := e,
                       timestamp := some now }]
                | none => [])
            ++ r.suggestions.map (fun sg =>
                { type := LineKind.suggestion,
                  content := "💡 AI suggests: " ++ sg,
                  timestamp := some now })
        { history := afterCmd ++ outputs, currentCommand := "",
          isThinking := false }
    | .error e =>
        { history := afterCmd ++
            [{ type := LineKind.error,
               content := "Error executing command: " ++ e,
               timestamp := some now }],
          currentCommand := "", isThinking := false }

/-- JavaScript `String.prototype.includes`, embedded via `splitOn`: a
non-empty pattern occurs in `s` iff splitting on it yields more than one
piece; the empty pattern is always contained. -/
def strIncludes (s sub : String) : Bool :=
  sub.isEmpty || (s.splitOn sub).length ≥ 2

/-- `getAIResponse` from the mock `Terminal` variant: canned line lists keyed
on the lowercased, trimmed command. -/
def getAIResponse (command : String) (now : Nat) : List TerminalLine :=
  let cmd := jsTrim command.toLower
  if strIncludes cmd ("install") || strIncludes cmd ("npm i") then
    [ { type := LineKind.output, content := "📦 Installing dependencies...",
        timestamp := some now },
      { type := LineKind.output,
        content := "✓ Dependencies installed successfully",
        timestamp := some now },
      { type := LineKind.suggestion,
        content := "💡 AI suggests: Run \x27npm audit\x27 to check for security vulnerabilities",
        timestamp := some now } ]
  else if strIncludes cmd ("build") then
    [ { type := LineKind.output, content := "🔨 Building application...",
        timestamp := some now },
      { type := LineKind.output, content := "✓ Build completed in 12.3s",
        timestamp := some now },
      { type := LineKind.suggestion,
        content := "💡 AI suggests: Your bundle size increased by 15%. Consider code splitting.",
        timestamp := some now } ]
  else if strIncludes cmd ("test") then
    [ { type := LineKind.output, content := "🧪 Running tests...",
        timestamp := some now },
      { type := LineKind.output, content := "✓ 24 tests passed",
        timestamp := some now },
      { type := LineKind.error, content := "⚠ 2 tests have low coverage",
        timestamp := some now },
      { type := LineKind.suggestion,
        content := "💡 AI suggests: Add tests for components/Button.tsx",
        timestamp := some now } ]
  else if strIncludes cmd ("git") && strIncludes cmd ("commit") then
    [ { type := LineKind.output, content := "📝 Committing changes...",
        timestamp := some now },
      { type := LineKind.output,
        content := "✓ Committed: feat: add AI-powered terminal interface",
        timestamp := some now },
      { type := LineKind.suggestion,
        content := "💡 AI suggests: Consider adding a pre-commit hook for linting",
        timestamp := some now } ]
  else if !(cmd.startsWith ("npm")) && !(cmd.startsWith ("git"))
      && !(cmd.startsWith ("yarn")) then
    [ { type := LineKind.output,
        content := "🤖 AI is analyzing your request...",
        timestamp := some now },
      { type := LineKind.output,
        content := "I understand you want help with: " ++ command,
        timestamp := some now },
      { type := LineKind.suggestion,
        content := "💡 Try: \x27npm run dev\x27 to start the development server",
        timestamp := some now } ]
  else
    [ { type := LineKind.output,
        content := "Command executed: " ++ command,
        timestamp := some now },
      { type := LineKind.suggestion,
        content := "💡 AI suggests: Use \x27help\x27 to see available commands",
        timestamp := some now } ]

/-- The mock `Terminal` variant's `executeCommand`: blank commands return
immediately; otherwise the command line is appended and, after the simulated
delay, the canned `getAIResponse` lines are appended. -/
def executeCommandMock (s : TermState) (command : String) (now : Nat) :
    TermState :=
  if jsTrim command = "" then s
  else
    { history := (s.history ++
        [{ type := LineKind.command, content := command,
           timestamp := some now }]) ++ getAIResponse command now
      currentCommand := ""
      isThinking := false }

/-- Role of a chat message in the `Sidebar` chat. -/
inductive ChatRole
  | user
  | assistant
deriving DecidableEq

/-- A chat message of the `Sidebar` chat (`role`, `content`). -/
structure ChatMessage where
  role : ChatRole
  content : String
deriving DecidableEq

/-- React state of the `Sidebar` chat: the input box and the message list. -/
structure SidebarState where
  chatInput : String
  messages : List ChatMessage
deriving DecidableEq

/-- `Sidebar.sendMessage`: a blank input is rejected up front; otherwise the
user message is appended, the input cleared, and the simulated AI response
timer started (the returned flag records whether it was started). -/
def sendMessage (s : SidebarState) : SidebarState × Bool :=
  if jsTrim s.chatInput = "" then (s, false)
  else
    ({ chatInput := ""
       messages := s.messages ++
         [{ role := ChatRole.user, content := s.chatInput }] },
     true)

/-- A project file entry, from the `ProjectFile` interface (`path`, `name`,
`file_type`, `size`, `modified`, `ai_relevance?`). -/
structure ProjectFile where
  path : String
  name : String
  file_type : String
  size : Nat
  modified : String
  ai_relevance : Option ℚ
deriving DecidableEq

/-- The hardcoded list the `Sidebar` substitutes when `getAISuggestedFiles`
fails (the `catch` branch of `loadSuggestions`, commented "Fallback to mock
data" in the source). -/
def mockFallbackFiles : List ProjectFile :=
  [ { path := "src/components/Button.tsx", name := "Button.tsx",
      file_type := "typescript", size := 2048,
      modified := "2024-01-15T10:30:00Z", ai_relevance := some (95/100) },
    { path := "src/utils/helpers.ts", name := "helpers.ts",
      file_type := "typescript", size := 1024,
      modified := "2024-01-14T15:20:00Z", ai_relevance := some (80/100) },
    { path := "src/styles/globals.css", name := "globals.css",
      file_type := "css", size := 4096,
      modified := "2024-01-13T09:15:00Z", ai_relevance := some (60/100) } ]

/-- The suggested-files list the `Sidebar` displays once the
`getAISuggestedFiles` promise settles with `resp`: the `try` branch stores
the returned list, the `catch` branch logs and stores the mock list. -/
def loadSuggestionsResult (resp : Except String (List ProjectFile)) :
    List ProjectFile :=
  match resp with
  | .ok files => files
  | .error _ => mockFallbackFiles

/-- C6 counterexample: when the AI-suggested-files query fails, the `Sidebar`
displays the non-empty hardcoded mock list — a state indistinguishable from a
successful query returning that list — instead of surfacing the failure. -/
theorem error_yields_mock_list :
    loadSuggestionsResult (Except.error ("invoke failed")) = mockFallbackFiles ∧
    mockFallbackFiles ≠ [] ∧
    loadSuggestionsResult (Except.error ("invoke failed"))
      = loadSuggestionsResult (Except.ok mockFallbackFiles) := by
  refine ⟨rfl, ?_, rfl⟩
  decide

/-- C6 amended: an error from the AI-suggested-files query is not surfaced as
a failure — the `catch` branch silently substitutes the hardcoded three-entry
mock list, while a successful query's list is stored as-is. -/
theorem failed_suggestions_silently_replaced :
    (∀ e : String, loadSuggestionsResult (Except.error e) = mockFallbackFiles) ∧
    (∀ files : List ProjectFile,
        loadSuggestionsResult (Except.ok files) = files) ∧
    mockFallbackFiles.length = 3 :=
  ⟨fun _ => rfl, fun _ => rfl, rfl⟩

/-- C8: submitting blank input is a no-op: a whitespace-only command leaves
the terminal state unchanged in both variants, whatever the oracle response
(so no AI call can influence the outcome), and a whitespace-only chat input
leaves the sidebar state unchanged with no AI response scheduled. -/
theorem blank_input_noop :
    ∀ (t : TermState) (cmd : String) (now : Nat)
      (resp : Except String TerminalResponse) (sb : SidebarState),
      jsTrim cmd = "" → jsTrim sb.chatInput = "" →
      executeCommand t cmd now resp = t ∧
      executeCommandMock t cmd now = t ∧
      sendMessage sb = (sb, false) := by
  intro t cmd now resp sb hc hs
  refine ⟨?_, ?_, ?_⟩
  · simp [executeCommand, hc]
  · simp [executeCommandMock, hc]
  · simp [sendMessage, hs]

/-- C8 witness: the blank-input guard fires on the concrete whitespace-only
inputs. -/
theorem blank_input_noop_witness :
    executeCommand ⟨[], "", false⟩ ("   ") 0 (Except.error ("backend down"))
      = ⟨[], "", false⟩ ∧
    executeCommandMock ⟨[], "", false⟩ ("   ") 0 = ⟨[], "", false⟩ ∧
    sendMessage ⟨" ", []⟩ = (⟨" ", []⟩, false) :=
  blank_input_noop ⟨[], "", false⟩ ("   ") 0 (Except.error ("backend down"))
    ⟨" ", []⟩ (by decide) (by decide)

/-- C9: the terminal history is append-only: every path through
`executeCommand` — blank-command guard, successful response (with or without
an error field or suggestions), or rejected promise — and every path through
the mock variant only extends the existing history on the right, so lines
already present are never mutated, reordered, or removed. -/
theorem history_append_only :
    ∀ (t : TermState) (cmd : String) (now : Nat)
      (resp : Except String TerminalResponse),
      (∃ new, (executeCommand t cmd now resp).history = t.history ++ new) ∧
      (∃ new, (executeCommandMock t cmd now).history = t.history ++ new) := by
  intro t cmd now resp
  constructor
  · by_cases h : jsTrim cmd = ""
    · exact ⟨[], by simp [executeCommand, h]⟩
    · cases resp with
      | ok r =>
          simp only [executeCommand, if_neg h]
          exact ⟨_, List.append_assoc _ _ _⟩
      | error e =>
          simp only [executeCommand, if_neg h]
          exact ⟨_, List.append_assoc _ _ _⟩
  · by_cases h : jsTrim cmd = ""
    · exact ⟨[], by simp [executeCommandMock, h]⟩
    · simp only [executeCommandMock, if_neg h]
      exact ⟨_, List.append_assoc _ _ _⟩

/-- C10: `MockAIService.completeCode` is deterministic and context-independent:
any two calls at the same level return structurally identical results, with
`id = "1"`, the requested level, confidence `0.92`, the fixed code text,
language `"typescript"`, and the fixed two alternatives. -/
theorem mock_completion_context_independent :
    ∀ (c₁ c₂ : AIContext) (lvl : CompletionLevel),
      MockAIService.completeCode c₁ lvl = MockAIService.completeCode c₂ lvl ∧
      (MockAIService.completeCode c₁ lvl).id = "1" ∧
      (MockAIService.completeCode c₁ lvl).level = lvl ∧
      (MockAIService.completeCode c₁ lvl).confidence = 92/100 ∧
      (MockAIService.completeCode c₁ lvl).code = mockButtonCode ∧
      (MockAIService.completeCode c₁ lvl).language = "typescript" ∧
      (MockAIService.completeCode c₁ lvl).alternatives =
        ["Styled components variant", "CSS modules variant"] :=
  fun _ _ _ => ⟨rfl, rfl, rfl, rfl, rfl, rfl, rfl⟩

/-- Modelled from the spec: an index entry of the Vector Store (`block id →
vector, metadata`).  The Vector Store itself is unimplemented in the
repository — only the DuckDB SQL pattern in the docs and the
`searchCodeSemantic` IPC wrapper exist — so entries and operations follow
spec §3 and §4.3. -/
structure IndexEntry where
  blockId : String
  vector : List ℚ
deriving DecidableEq

/-- Modelled from the spec: the live entries of the Vector Store. -/
abbrev VectorStore := List IndexEntry

/-- Modelled from the spec: `upsert(blockId, vector, metadata)` — the stale
entry for the id is removed before the new one is inserted, so no two live
entries share a block id. -/
def upsert (s : VectorStore) (blockId : String) (v : List ℚ) : VectorStore :=
  ⟨blockId, v⟩ :: s.filter (fun e => e.blockId != blockId)

/-- Modelled from the spec: `remove(blockId)` — tombstones every live entry
of the block id. -/
def remove (s : VectorStore) (blockId : String) : VectorStore :=
  s.filter (fun e => e.blockId != blockId)

/-- Ranking relation used by `query`: non-increasing similarity score. -/
def simGE (a b : String × ℚ) : Prop := b.2 ≤ a.2

instance : DecidableRel simGE :=
  fun a b => inferInstanceAs (Decidable (b.2 ≤ a.2))

instance : IsTotal (String × ℚ) simGE := ⟨fun a b => le_total b.2 a.2⟩

instance : IsTrans (String × ℚ) simGE := ⟨fun _ _ _ h₁ h₂ => le_trans h₂ h₁⟩

/-- Modelled from the spec: `query(vector, k, filter) -> [(blockId,
similarity)]` ordered by descending cosine similarity, at most `k` results.
The similarity scoring is abstracted as the parameter `sim` (the cosine
similarity of the query vector against a stored vector, computed by the
external embedding layer); the guarantees below hold for every scoring
function. -/
def query (s : VectorStore) (sim : List ℚ → ℚ) (k : Nat)
    (flt : String → Bool) : List (String × ℚ) :=
  (((s.filter (fun e => flt e.blockId)).map
      (fun e => (e.blockId, sim e.vector))).insertionSort simGE).take k

/-- C2: a semantic query returns at most `k` results, in non-increasing
similarity order, and after `remove blockId` never returns the removed id —
for every store, scoring function, bound, and metadata filter. -/
theorem query_bounded_sorted_no_removed :
    ∀ (s : VectorStore) (blockId : String) (sim : List ℚ → ℚ) (k : Nat)
      (flt : String → Bool),
      (query s sim k flt).length ≤ k ∧
      (query s sim k flt).Pairwise (fun a b => b.2 ≤ a.2) ∧
      (∀ p, p ∈ query (remove s blockId) sim k flt → p.1 ≠ blockId) := by
  intro s blockId sim k flt
  refine ⟨?_, ?_, ?_⟩
  · rw [query, List.length_take]
    exact min_le_left _ _
  · have hs := List.sorted_insertionSort simGE
      ((s.filter (fun e => flt e.blockId)).map
        (fun e => (e.blockId, sim e.vector)))
    exact hs.sublist (List.take_sublist _ _)
  · intro p hp
    have h₁ : p ∈ ((((remove s blockId).filter (fun e => flt e.blockId)).map
        (fun e => (e.blockId, sim e.vector))).insertionSort simGE) :=
      List.mem_of_mem_take hp
    have h₂ := (List.perm_insertionSort simGE _).mem_iff.mp h₁
    rcases List.mem_map.mp h₂ with ⟨e, he, rfl⟩
    have h₃ : e ∈ remove s blockId := (List.mem_filter.mp he).1
    have h₄ := (List.mem_filter.mp h₃).2
    simpa [bne_iff_ne] using h₄

/-- C2 witness: on a concrete two-entry store with `"b"` removed, the query
returns the surviving entry, and the theorem rules the removed id out of the
result. -/
theorem query_bounded_sorted_no_removed_witness :
    (("a", (0 : ℚ)) ∈
        query (remove [⟨"a", []⟩, ⟨"b", []⟩] "b") (fun _ => 0) 2
          (fun _ => true)) ∧
    ("a" : String) ≠ "b" :=
  ⟨by decide,
   (query_bounded_sorted_no_removed [⟨"a", []⟩, ⟨"b", []⟩] "b" (fun _ => 0) 2
       (fun _ => true)).2.2 ("a", 0) (by decide)⟩

/-- Modelled from the spec: the live entry for a block id, used to compare
index states. -/
def lookup (s : VectorStore) (blockId : String) : Option (List ℚ) :=
  (s.find? (fun e => e.blockId == blockId)).map IndexEntry.vector

/-- Modelled from the spec: the live block ids of the store. -/
def entryIds (s : VectorStore) : List String := s.map IndexEntry.blockId

/-- Modelled from the spec: (re-)indexing a file upserts each parsed block's
content-addressed id with its embedding, in block order.  Parsing and
embedding are deterministic for unchanged text (spec §3, §4.2), so
re-indexing an unchanged file replays the same `blocks` list. -/
def indexFile (s : VectorStore) (blocks : List (String × List ℚ)) :
    VectorStore :=
  blocks.foldl (fun st b => upsert st b.1 b.2) s

/-- The embedding of the last block in `blocks` carrying the given id. -/
def lastVec (blocks : List (String × List ℚ)) (j : String) :
    Option (List ℚ) :=
  match blocks with
  | [] => none
  | b :: bs =>
      match lastVec bs j with
      | some v => some v
      | none => if b.1 == j then some b.2 else none

/-- `find?` ignores a filter that keeps every possible match. -/
lemma find?_filter_of_imp {α} (p q : α → Bool) (l : List α)
    (h : ∀ a, p a = true → q a = true) :
    (l.filter q).find? p = l.find? p := by
  induction l with
  | nil => rfl
  | cons a l ih =>
      by_cases hq : q a = true
      · rw [List.filter_cons_of_pos hq]
        by_cases hp : p a = true
        · rw [List.find?_cons_of_pos _ hp, List.find?_cons_of_pos _ hp]
        · rw [List.find?_cons_of_neg _ hp, List.find?_cons_of_neg _ hp, ih]
      · have hp : ¬ p a = true := fun hpa => hq (h a hpa)
        rw [List.filter_cons_of_neg hq, List.find?_cons_of_neg _ hp, ih]

/-- `lookup` after `upsert`: the upserted id maps to the new vector, all
other ids are untouched. -/
lemma lookup_upsert (s : VectorStore) (i : String) (v : List ℚ)
    (j : String) :
    lookup (upsert s i v) j = if j = i then some v else lookup s j := by
  by_cases hji : j = i
  · subst hji
    simp [lookup, upsert]
  · rw [if_neg hji]
    have hij : (i == j) = false := by
      simp only [beq_eq_false_iff_ne, ne_eq]
      exact fun h => hji h.symm
    simp only [lookup, upsert, List.find?_cons, hij]
    rw [find?_filter_of_imp]
    intro e he
    have heq : e.blockId = j := by simpa using he
    simp only [bne_iff_ne, heq]
    exact hji

/-- `lookup` after `indexFile`: the last upsert for an id wins; ids not in
the block list are untouched. -/
lemma lookup_indexFile (blocks : List (String × List ℚ)) :
    ∀ (s : VectorStore) (j : String),
      lookup (indexFile s blocks) j
        = match lastVec blocks j with
          | some v => some v
          | none => lookup s j := by
  induction blocks with
  | nil => intro s j; rfl
  | cons b bs ih =>
      intro s j
      have h₁ : indexFile s (b :: bs) = indexFile (upsert s b.1 b.2) bs := rfl
      rw [h₁, ih]
      cases h : lastVec bs j with
      | some v => simp [lastVec, h]
      | none =>
          rw [lookup_upsert]
          by_cases hj : j = b.1
          · subst hj
            simp [lastVec, h]
          · have hj' : ¬ b.1 = j := fun hh => hj hh.symm
            simp [lastVec, h, hj, hj']

/-- `upsert` preserves distinctness of the live block ids. -/
lemma entryIds_upsert_nodup (s : VectorStore) (i : String) (v : List ℚ)
    (h : (entryIds s).Nodup) : (entryIds (upsert s i v)).Nodup := by
  simp only [entryIds, upsert, List.map_cons]
  rw [List.nodup_cons]
  constructor
  · intro hmem
    rcases List.mem_map.mp hmem with ⟨e, he, hei⟩
    have := (List.mem_filter.mp he).2
    rw [hei] at this
    simp at this
  · exact h.sublist ((List.filter_sublist s).map IndexEntry.blockId)

/-- `indexFile` preserves distinctness of the live block ids. -/
lemma entryIds_indexFile_nodup (blocks : List (String × List ℚ)) :
    ∀ s : VectorStore, (entryIds s).Nodup →
      (entryIds (indexFile s blocks)).Nodup := by
  induction blocks with
  | nil => exact fun _ h => h
  | cons b bs ih => exact fun s h => ih _ (entryIds_upsert_nodup s b.1 b.2 h)

/-- C7: re-indexing an unchanged file is idempotent — a second pass over the
same block list leaves every block id bound to exactly the entry the first
pass produced — and indexing never introduces duplicate live entries
(distinct live ids stay distinct). -/
theorem reindex_idempotent :
    ∀ (s : VectorStore) (blocks : List (String × List ℚ)),
      (∀ j, lookup (indexFile (indexFile s blocks) blocks) j
          = lookup (indexFile s blocks) j) ∧
      ((entryIds s).Nodup → (entryIds (indexFile s blocks)).Nodup) := by
  intro s blocks
  constructor
  · intro j
    rw [lookup_indexFile blocks (indexFile s blocks) j,
      lookup_indexFile blocks s j]
    cases h : lastVec blocks j <;> simp [h]
  · exact entryIds_indexFile_nodup blocks s

/-- C7 witness: re-indexing a concrete two-block file over the empty store
changes nothing, and the indexed store has no duplicate ids. -/
theorem reindex_idempotent_witness :
    lookup (indexFile (indexFile [] [("a", [1]), ("b", [2])])
        [("a", [1]), ("b", [2])]) "a"
      = lookup (indexFile [] [("a", [1]), ("b", [2])]) "a" ∧
    (entryIds (indexFile ([] : VectorStore) [("a", [1]), ("b", [2])])).Nodup :=
  ⟨(reindex_idempotent [] [("a", [1]), ("b", [2])]).1 "a",
   (reindex_idempotent [] [("a", [1]), ("b", [2])]).2 (by decide)⟩

end Codify
